import Mathlib

/-!
Verification of the Amidar simulation engine (`src/toybox/src/amidar.rs`).

The Rust source is shallowly embedded: `i32` becomes `Int` (Rust `/` on `i32`
truncates toward zero, embedded as `Int.tdiv`), `u32` becomes `Nat`,
`Vec`/`VecDeque` become `List` (the front of a `VecDeque` is the list head),
`HashSet<u32>` becomes a `List Nat` used only through membership, and
operations that can panic or diverge in Rust return `Option` (with `none`
standing for the abnormal outcome).  Loops without a structural bound in the
source carry an explicit fuel argument; the fuel chosen is large enough that
exhaustion can only happen in situations where the source itself faults or
diverges.
-/

namespace Amidar

/-- Embeds `screen::TILE_SIZE`. -/
def screenTileSize : Int × Int := (4, 5)

/-- Embeds `world::SCALE`. -/
def worldScale : Int := 16

/-- Embeds `world::TILE_SIZE` = `(screen::TILE_SIZE.0 * SCALE, screen::TILE_SIZE.1 * SCALE)`. -/
def worldTileSize : Int × Int := (screenTileSize.1 * worldScale, screenTileSize.2 * worldScale)

/-- Embeds `Direction`. -/
inductive Direction where
  | Up
  | Down
  | Left
  | Right
deriving DecidableEq, Repr

/-- Embeds `Direction::delta`. -/
def Direction.delta : Direction → Int × Int
  | .Up => (0, -1)
  | .Down => (0, 1)
  | .Left => (-1, 0)
  | .Right => (1, 0)

/-- Embeds the `Input` alphabet consumed by `choose_next_tile` (`super::Input`). -/
inductive Input where
  | Up
  | Down
  | Left
  | Right
deriving DecidableEq, Repr

/-- Embeds `ScreenPoint`. -/
structure ScreenPoint where
  sx : Int
  sy : Int
deriving DecidableEq, Repr

/-- Embeds `WorldPoint`. -/
structure WorldPoint where
  x : Int
  y : Int
deriving DecidableEq, Repr

/-- Embeds `TilePoint`. -/
structure TilePoint where
  tx : Int
  ty : Int
deriving DecidableEq, Repr

/-- Embeds `WorldPoint::to_screen` (Rust `i32` division truncates). -/
def WorldPoint.to_screen (w : WorldPoint) : ScreenPoint :=
  ⟨Int.tdiv w.x worldScale, Int.tdiv w.y worldScale⟩

/-- Embeds `WorldPoint::to_tile`: truncating division on each axis, then
subtract 1 on an axis whose coordinate is negative. -/
def WorldPoint.to_tile (w : WorldPoint) : TilePoint :=
  let tx := Int.tdiv w.x worldTileSize.1
  let ty := Int.tdiv w.y worldTileSize.2
  let tx := if w.x < 0 then tx - 1 else tx
  let ty := if w.y < 0 then ty - 1 else ty
  ⟨tx, ty⟩

/-- Embeds `WorldPoint::translate`. -/
def WorldPoint.translate (w : WorldPoint) (dx dy : Int) : WorldPoint :=
  ⟨w.x + dx, w.y + dy⟩

/-- Embeds `TilePoint::to_world`. -/
def TilePoint.to_world (t : TilePoint) : WorldPoint :=
  ⟨t.tx * worldTileSize.1, t.ty * worldTileSize.2⟩

/-- Embeds `TilePoint::translate`. -/
def TilePoint.translate (t : TilePoint) (dx dy : Int) : TilePoint :=
  ⟨t.tx + dx, t.ty + dy⟩

/-- Embeds `TilePoint::step`. -/
def TilePoint.step (t : TilePoint) (dir : Direction) : TilePoint :=
  t.translate dir.delta.1 dir.delta.2

/-- Embeds `Tile`. -/
inductive Tile where
  | Empty
  | Unpainted
  | Painted
deriving DecidableEq, Repr

/-- Embeds `Tile::new_from_char`; the Rust `Err` outcome is `none`. -/
def Tile.new_from_char (c : Char) : Option Tile :=
  if c = '=' then some Tile.Unpainted
  else if c = 'p' then some Tile.Painted
  else if c = ' ' then some Tile.Empty
  else none

/-- Embeds `Tile::walkable`. -/
def Tile.walkable : Tile → Bool
  | Tile.Empty => false
  | Tile.Painted => true
  | Tile.Unpainted => true

/-- Embeds `GridBox`. -/
structure GridBox where
  top_left : TilePoint
  bottom_right : TilePoint
  painted : Bool
deriving DecidableEq, Repr

/-- Embeds `GridBox::new`. -/
def GridBox.new (top_left bottom_right : TilePoint) : GridBox :=
  ⟨top_left, bottom_right, false⟩

/-- Embeds `GridBox::matches` (Rust name `matches`, a Lean keyword). -/
def GridBox.matchesTile (g : GridBox) (tile : TilePoint) : Bool :=
  let x1 := g.top_left.tx
  let x2 := g.bottom_right.tx
  let y1 := g.top_left.ty
  let y2 := g.bottom_right.ty
  let xq := tile.tx
  let yq := tile.ty
  (x1 ≤ xq) && (xq ≤ x2) && (y1 ≤ yq) && (yq ≤ y2)

/-- Embeds `Board`.  The `HashSet<u32>` of junction ids is a `List Nat` used
only through membership; `boxes` keeps the order in which Rust would produce
them up to the unspecified `HashSet` iteration order (fixed here to ascending
id order). -/
structure Board where
  tiles : List (List Tile)
  width : Nat
  height : Nat
  junctions : List Nat
  boxes : List GridBox
deriving DecidableEq, Repr

/-- Embeds `ScoreUpdate`. -/
structure ScoreUpdate where
  vertical : Int
  horizontal : Int
  num_boxes : Int
deriving DecidableEq, Repr

/-- Embeds `ScoreUpdate::new`. -/
def ScoreUpdate.new : ScoreUpdate := ⟨0, 0, 0⟩

/-- Embeds `ScoreUpdate::happened`. -/
def ScoreUpdate.happened (s : ScoreUpdate) : Bool :=
  s.vertical != 0 || s.horizontal != 0 || s.num_boxes != 0

/-- Embeds `ScoreUpdate::into_option`. -/
def ScoreUpdate.into_option (s : ScoreUpdate) : Option ScoreUpdate :=
  if s.happened then some s else none

/-- Embeds `Board::get_tile`.  Rust casts the `i32` coordinates to `usize`
(negative values wrap to indices beyond any vector) and defaults to
`Tile::Empty` on any failed lookup. -/
def Board.get_tile (b : Board) (tile : TilePoint) : Tile :=
  if 0 ≤ tile.ty ∧ 0 ≤ tile.tx then
    (b.tiles.getD tile.ty.toNat []).getD tile.tx.toNat Tile.Empty
  else Tile.Empty

/-- Embeds `Board::is_painted`. -/
def Board.is_painted (b : Board) (xy : TilePoint) : Bool :=
  b.get_tile xy = Tile.Painted

/-- Embeds `Board::is_corner`. -/
def Board.is_corner (b : Board) (tx ty : Int) : Bool :=
  let last_y : Int := (b.height : Int) - 1
  let last_x : Int := (b.width : Int) - 1
  (tx = 0 || tx = last_x) && (ty = 0 || ty = last_y)

/-- Embeds `Board::tile_id`. -/
def Board.tile_id (b : Board) (tile : TilePoint) : Option Nat :=
  if tile.ty < 0 ∨ tile.tx < 0 ∨ (b.height : Int) ≤ tile.ty ∨ (b.width : Int) ≤ tile.tx then
    none
  else
    some (tile.ty.toNat * b.width + tile.tx.toNat)

/-- Embeds `Board::get_junction_id`. -/
def Board.get_junction_id (b : Board) (tile : TilePoint) : Option Nat :=
  (b.tile_id tile).filter (fun num => num ∈ b.junctions)

/-- Embeds `Board::lookup_position`. -/
def Board.lookup_position (b : Board) (position : Nat) : TilePoint :=
  ⟨((position % b.width : Nat) : Int), ((position / b.width : Nat) : Int)⟩

/-- Embeds the inner loop of `Board::init_junctions`: the number of walkable
4-neighbors of `(x, y)`. -/
def Board.walkable_neighbors (b : Board) (x y : Int) : Nat :=
  ([(x + 1, y), (x, y + 1), (x - 1, y), (x, y - 1)].filter
    (fun p => (b.get_tile ⟨p.1, p.2⟩).walkable)).length

/-- Embeds `Board::init_junctions` as the list of junction ids it inserts
(row-major traversal of the grid as in the source's `enumerate` loops). -/
def Board.init_junctions (b : Board) : List Nat :=
  (List.range b.tiles.length).flatMap (fun y =>
    let row := b.tiles.getD y []
    (List.range row.length).filterMap (fun x =>
      let cell := row.getD x Tile.Empty
      if cell.walkable ∧
          (2 < b.walkable_neighbors (x : Int) (y : Int) ∨ b.is_corner (x : Int) (y : Int)) then
        some (y * b.width + x)
      else none))

/-- Embeds the body of the loop of `Board::junction_neighbor`.  The source
loops until `tile_id` fails (`?` propagates `None`); stepping one tile per
iteration in a fixed direction leaves the grid after at most
`width + height + 2` iterations (the fuel), so fuel exhaustion is unreachable
from in-grid starting points. -/
def Board.junction_neighbor_go (b : Board) (search walkable : Direction) :
    Nat → TilePoint → Option Nat
  | 0, _ => none
  | fuel + 1, pos =>
    let pos := pos.step search
    match b.tile_id pos with
    | none => none
    | some num =>
      if num ∈ b.junctions ∧ (b.get_tile (pos.step walkable)).walkable then
        some num
      else
        b.junction_neighbor_go search walkable fuel pos

/-- Embeds `Board::junction_neighbor`. -/
def Board.junction_neighbor (b : Board) (source : Nat) (search walkable : Direction) :
    Option Nat :=
  b.junction_neighbor_go search walkable (b.width + b.height + 2) (b.lookup_position source)

/-- Embeds `Board::junction_corners`. -/
def Board.junction_corners (b : Board) (source : Nat) : Option GridBox := do
  let right := b.lookup_position (← b.junction_neighbor source Direction.Right Direction.Down)
  let down := b.lookup_position (← b.junction_neighbor source Direction.Down Direction.Right)
  let down_right ← b.tile_id ⟨right.tx, down.ty⟩
  if down_right ∈ b.junctions then
    some (GridBox.new (b.lookup_position source) (b.lookup_position down_right))
  else
    none

/-- Embeds `GridBox::should_update_paint`. -/
def GridBox.should_update_paint (g : GridBox) (board : Board) : Bool :=
  if g.painted then false
  else
    let x1 := g.top_left.tx
    let x2 := g.bottom_right.tx
    let y1 := g.top_left.ty
    let y2 := g.bottom_right.ty
    let top_and_bottom := (List.range (x2 + 1 - x1).toNat).all (fun k =>
      board.is_painted ⟨x1 + k, y1⟩ && board.is_painted ⟨x1 + k, y2⟩)
    let left_and_right := (List.range (y2 + 1 - y1).toNat).all (fun k =>
      board.is_painted ⟨x1, y1 + k⟩ && board.is_painted ⟨x2, y1 + k⟩)
    top_and_bottom && left_and_right

/-- Embeds `Board::paint`.  The Rust indexing `self.tiles[ty][tx]` panics out
of bounds; that outcome is `none`. -/
def Board.paint (b : Board) (tile : TilePoint) : Option (Board × Bool) :=
  if 0 ≤ tile.ty ∧ tile.ty.toNat < b.tiles.length ∧ 0 ≤ tile.tx ∧
      tile.tx.toNat < (b.tiles.getD tile.ty.toNat []).length then
    if (b.tiles.getD tile.ty.toNat []).getD tile.tx.toNat Tile.Empty = Tile.Painted then
      some (b, false)
    else
      some ({ b with
                tiles := b.tiles.set tile.ty.toNat
                  ((b.tiles.getD tile.ty.toNat []).set tile.tx.toNat Tile.Painted) }, true)
  else none

/-- Embeds `Board::check_box_painting`.  The source collects the indices of the
boxes to update against the unmodified board, then sets their flags; since
`should_update_paint` reads only tiles and the box's own flag, this equals the
pointwise update below. -/
def Board.check_box_painting (b : Board) (t1 t2 : TilePoint) : Board × Int :=
  let hit := fun (g : GridBox) =>
    (g.matchesTile t1 || g.matchesTile t2) && g.should_update_paint b
  let updated : Int := (b.boxes.filter hit).length
  ({ b with boxes := b.boxes.map (fun g => if hit g then { g with painted := true } else g) },
    updated)

/-- Embeds the `while t != t2` painting loop of `Board::check_paint`.  The fuel
passed by `check_paint` is exactly the number of iterations after which the
source's walk can no longer reach `t2`; past it the source either panics inside
`paint` (out-of-bounds indexing) or walks forever, both modelled `none`. -/
def Board.paint_loop (t2 : TilePoint) (dx dy : Int) :
    Nat → Board → TilePoint → Bool → Option (Board × Bool)
  | fuel, b, t, newly =>
    if t = t2 then some (b, newly)
    else
      match fuel with
      | 0 => none
      | fuel + 1 => do
        let t := t.translate dx dy
        let (b, p) ← b.paint t
        Board.paint_loop t2 dx dy fuel b t (newly || p)

/-- Embeds `Board::check_paint`.  The history list is front-first like the
source's `VecDeque`; the returned triple is the painted board, the
`ScoreUpdate`, and the history after the final collapse step.  The source's
`debug_assert!(dx.abs() + dy.abs() == 1)` is compiled out in release builds and
is modelled by `segment_aligned` below, not enforced here. -/
def Board.check_paint (b : Board) (player_history : List Nat) :
    Option (Board × ScoreUpdate × List Nat) := do
  let mut_pair ←
    match player_history.head? with
    | none => some (b, ScoreUpdate.new)
    | some e =>
      match player_history.find? (fun j => j != e) with
      | none => some (b, ScoreUpdate.new)
      | some start =>
        let t1 := b.lookup_position start
        let t2 := b.lookup_position e
        let dx := (t2.tx - t1.tx).sign
        let dy := (t2.ty - t1.ty).sign
        do
          let (b1, p1) ← b.paint t1
          let fuel := max (t2.tx - t1.tx).natAbs (t2.ty - t1.ty).natAbs
          let (b2, newly) ← Board.paint_loop t2 dx dy fuel b1 t1 p1
          if newly then
            let vertical := if 0 < dy then |t2.ty - t1.ty| else 0
            let horizontal := if 0 < dy then 0 else |t2.tx - t1.tx|
            let (b3, updated) := b2.check_box_painting t1 t2
            some (b3, (⟨vertical, horizontal, updated⟩ : ScoreUpdate))
          else
            some (b2, ScoreUpdate.new)
  let (b', score_change) := mut_pair
  let history' :=
    if score_change.happened then
      match player_history.head? with
      | some current => [current]
      | none => player_history
    else player_history
  some (b', score_change, history')

/-- The invariant `debug_assert!(dx.abs() + dy.abs() == 1)` asserted by
`Board::check_paint` about the segment from `t1` to `t2`. -/
def segment_aligned (t1 t2 : TilePoint) : Prop :=
  |(t2.tx - t1.tx).sign| + |(t2.ty - t1.ty).sign| = 1

instance (t1 t2 : TilePoint) : Decidable (segment_aligned t1 t2) := by
  unfold segment_aligned; infer_instance

/-- Embeds `Board::try_new`, parameterized by the layout text (the source reads
the static resource `amidar_default_board`, which is not part of the sources
under verification).  Any unknown character, or an empty layout (the source
indexes `tiles[0]`), is `none`.  The `HashSet` iteration order used to build
`boxes` is unspecified in Rust and fixed here to the row-major order in which
`init_junctions` inserts ids. -/
def Board.try_new (layout : List String) : Option Board :=
  match layout.mapM (fun line => line.toList.mapM Tile.new_from_char) with
  | none => none
  | some tiles =>
    match tiles.head? with
    | none => none
    | some row0 =>
      let width := row0.length
      let height := tiles.length
      let base : Board := ⟨tiles, width, height, [], []⟩
      let board : Board := { base with junctions := base.init_junctions }
      some { board with boxes := board.junctions.filterMap board.junction_corners }

/-- Embeds `MovementAI`. -/
inductive MovementAI where
  | Player
  | EnemyLookupAI (next : Nat) (path : List Nat)
deriving DecidableEq, Repr

/-- Embeds `MovementAI::reset`. -/
def MovementAI.reset : MovementAI → MovementAI
  | .Player => .Player
  | .EnemyLookupAI _ path => .EnemyLookupAI 0 path

/-- Embeds `MovementAI::choose_next_tile`.  The enemy branch mutates the
cursor, so the updated `MovementAI` is returned alongside the `Option` target;
`path.len() == 0` makes the Rust `%` panic (`none`). -/
def MovementAI.choose_next_tile (ai : MovementAI) (position : TilePoint)
    (buttons : List Input) (board : Board) : Option (MovementAI × Option TilePoint) :=
  match ai with
  | .Player =>
    let left := buttons.contains Input.Left
    let right := buttons.contains Input.Right
    let up := buttons.contains Input.Up
    let down := buttons.contains Input.Down
    let input : Option Direction :=
      if left then some Direction.Left
      else if right then some Direction.Right
      else if up then some Direction.Up
      else if down then some Direction.Down
      else none
    some (.Player, input.bind (fun dir =>
      let target_tile := position.step dir
      if (board.get_tile target_tile).walkable then some target_tile else none))
  | .EnemyLookupAI next path =>
    if path.length = 0 then none
    else
      let next := (next + 1) % path.length
      some (.EnemyLookupAI next path, some (board.lookup_position (path.getD next 0)))

/-- Embeds `Mob`. -/
structure Mob where
  ai : MovementAI
  position : WorldPoint
  speed : Int
  step : Option TilePoint
  history : List Nat
deriving DecidableEq, Repr

/-- Embeds `Mob::new`. -/
def Mob.new (ai : MovementAI) (position : WorldPoint) : Mob :=
  ⟨ai, position, 8, none, []⟩

/-- Embeds `Mob::new_player`. -/
def Mob.new_player (position : WorldPoint) : Mob :=
  ⟨MovementAI.Player, position, 8, none, []⟩

/-- Embeds `Mob::is_player`. -/
def Mob.is_player (m : Mob) : Bool :=
  m.ai = MovementAI.Player

/-- Embeds `Mob::reset`.  An enemy with an empty path makes the Rust `path[0]`
panic (`none`). -/
def Mob.reset (m : Mob) (player_start : TilePoint) (board : Board) : Option Mob :=
  let ai := m.ai.reset
  match ai with
  | .Player =>
    some { m with step := none, ai := ai, position := player_start.to_world, history := [] }
  | .EnemyLookupAI _ path =>
    match path.head? with
    | none => none
    | some p0 =>
      some { m with
              step := none, ai := ai,
              position := (board.lookup_position p0).to_world, history := [] }

/-- Embeds `Mob::update`.  Returns the updated mob, the board (mutated by the
player's `check_paint`), and the player's optional `ScoreUpdate`. -/
def Mob.update (m0 : Mob) (buttons : List Input) (board : Board) :
    Option (Mob × Board × Option ScoreUpdate) := do
  let m1 :=
    if m0.history.isEmpty then
      match board.get_junction_id (m0.position.to_tile) with
      | some pt => { m0 with history := pt :: m0.history }
      | none => m0
    else m0
  let m2 :=
    match m1.step with
    | some target =>
      let world_target := target.to_world
      let dx := world_target.x - m1.position.x
      let dy := world_target.y - m1.position.y
      if dx = 0 ∧ dy = 0 then
        let m' :=
          match board.get_junction_id target with
          | some pt => { m1 with history := pt :: m1.history }
          | none => m1
        { m' with step := none }
      else
        { m1 with
          position := ⟨m1.position.x + m1.speed * dx.sign, m1.position.y + m1.speed * dy.sign⟩ }
    | none => m1
  let m3 ←
    match m2.step with
    | none => do
      let (ai', target) ← m2.ai.choose_next_tile (m2.position.to_tile) buttons board
      pure { m2 with ai := ai', step := target }
    | some _ => pure m2
  if m3.is_player then
    let (board', score, history') ← board.check_paint m3.history
    pure ({ m3 with history := history' }, board', score.into_option)
  else
    let m4 :=
      if 12 < m3.history.length then { m3 with history := m3.history.dropLast } else m3
    pure (m4, board, none)

/-- Embeds `State`. -/
structure State where
  dead : Bool
  game_over : Bool
  score : Int
  box_bonus : Int
  player : Mob
  player_start : TilePoint
  enemies : List Mob
  board : Board
deriving DecidableEq, Repr

/-- Embeds `Board::make_enemy`; an empty route makes `positions[0]` panic. -/
def Board.make_enemy (b : Board) (positions : List Nat) : Option Mob :=
  match positions.head? with
  | none => none
  | some first =>
    some (Mob.new (MovementAI.EnemyLookupAI 0 positions) ((b.lookup_position first).to_world))

/-- Embeds the `for enemy in self.enemies.iter_mut()` loop of `State::reset`:
reset each enemy in order (a panic in `Mob::reset` on one enemy, `none`, stops
the loop as in Rust). -/
def State.reset_enemies (player_start : TilePoint) (board : Board) :
    List Mob → Option (List Mob)
  | [] => some []
  | e :: rest => do
    let e' ← e.reset player_start board
    let rest' ← State.reset_enemies player_start board rest
    pure (e' :: rest')

/-- Embeds `State::reset`: reset the player, push the junction id of tile
`(31, 18)` (the source unwraps it; `none` if that tile is not a junction of
the board), then reset every enemy. -/
def State.reset (s : State) : Option State := do
  let player ← s.player.reset s.player_start s.board
  let pt ← s.board.get_junction_id ⟨31, 18⟩
  let player := { player with history := pt :: player.history }
  let enemies ← State.reset_enemies s.player_start s.board s.enemies
  pure { s with player := player, enemies := enemies }

/-- Embeds `State::try_new`, parameterized by the board and the parsed enemy
routes (the source builds the board from the cached default layout and parses
`amidar_enemy_positions`; both resource files are outside the sources under
verification). -/
def State.try_new (board : Board) (routes : List (List Nat)) : Option State := do
  let enemies ← routes.mapM board.make_enemy
  let player_start : TilePoint := ⟨31, 15⟩
  let player := Mob.new_player player_start.to_world
  let state : State :=
    { dead := false, game_over := false, score := 0, box_bonus := 50,
      player := player, player_start := player_start, enemies := enemies, board := board }
  state.reset

/-- Embeds the first block of `State::update_mut`: update the player and apply
the score delta (`horizontal`, the sign of `vertical`, and `box_bonus` per
completed box). -/
def State.player_phase (s : State) (buttons : List Input) : Option State := do
  let (player, board, score_change) ← s.player.update buttons s.board
  let score :=
    match score_change with
    | some sc => s.score + sc.horizontal + sc.vertical.sign + s.box_bonus * sc.num_boxes
    | none => s.score
  pure { s with player := player, board := board, score := score }

/-- Embeds the enemy loop of `State::update_mut`: update each enemy in order,
stopping at the first whose tile matches the player's (`break`); enemies after
the break are left untouched. -/
def State.enemies_loop (player_tile : TilePoint) (board : Board) :
    List Mob → Option (List Mob × Board × Bool)
  | [] => some ([], board, false)
  | e :: rest => do
    let (e', board', _) ← e.update [] board
    if player_tile = e'.position.to_tile then
      some (e' :: rest, board', true)
    else do
      let (rest', board'', found) ← State.enemies_loop player_tile board' rest
      some (e' :: rest', board'', found)

/-- Embeds the middle block of `State::update_mut` (the `for enemy ...` loop
setting `self.dead`). -/
def State.enemy_phase (s : State) : Option State := do
  let (enemies, board, found) ← State.enemies_loop (s.player.position.to_tile) s.board s.enemies
  pure { s with enemies := enemies, board := board, dead := s.dead || found }

/-- Embeds the final block of `State::update_mut`: on death, reset within the
same tick and clear the flag. -/
def State.death_phase (s : State) : Option State :=
  if s.dead then do
    let s' ← s.reset
    pure { s' with dead := false }
  else pure s

/-- Embeds `State::update_mut` as the composition of its three blocks. -/
def State.update_mut (s : State) (buttons : List Input) : Option State := do
  let s1 ← s.player_phase buttons
  let s2 ← s1.enemy_phase
  s2.death_phase

/-- Iterates `State::update_mut` over a per-tick input script. -/
def State.run_ticks (s : State) : List (List Input) → Option State
  | [] => some s
  | buttons :: rest => do
    let s' ← s.update_mut buttons
    State.run_ticks s' rest

/-- A 1-wide, 2-tall all-corridor board (the value of
`Board::try_new ["=", "="]`, checked in the C1 theorem); both tiles are grid
corners, hence junctions 0 and 1, and there are no boxes. -/
def c1_board : Board :=
  ⟨[[Tile.Unpainted], [Tile.Unpainted]], 1, 2, [0, 1], []⟩

/-- A 2×2 board whose `(0,0)` corner tile is Empty (the value of
`Board::try_new [" =", "=="]`, checked in the C4 counterexample). -/
def c4_board : Board :=
  ⟨[[Tile.Empty, Tile.Unpainted], [Tile.Unpainted, Tile.Unpainted]], 2, 2, [1, 2, 3], []⟩

/-- A 2×2 all-corridor board (the value of `Board::try_new ["==", "=="]`,
checked in the C4 witness): all four tiles are walkable corners. -/
def c4w_board : Board :=
  ⟨[[Tile.Unpainted, Tile.Unpainted], [Tile.Unpainted, Tile.Unpainted]], 2, 2,
    [0, 1, 2, 3], [GridBox.new ⟨0, 0⟩ ⟨1, 1⟩]⟩

/-- A 3×2 board with an elbow (the value of `Board::try_new ["== ", " =="]`,
checked in the C5 theorem): walkable tiles `(0,0),(1,0),(1,1),(2,1)`; its only
junctions are the walkable corners `(0,0)` (id 0) and `(2,1)` (id 5), so the
elbow path between them visits no other junction. -/
def c5_board : Board :=
  ⟨[[Tile.Unpainted, Tile.Unpainted, Tile.Empty],
    [Tile.Empty, Tile.Unpainted, Tile.Unpainted]], 3, 2, [0, 5], []⟩

/-- A game on `c5_board`: player at the corner junction `(0,0)`, no enemies. -/
def c5_state : State :=
  { dead := false, game_over := false, score := 0, box_bonus := 50,
    player := Mob.new_player (TilePoint.mk 0 0).to_world, player_start := ⟨0, 0⟩,
    enemies := [], board := c5_board }

/-- Input script walking the player `(0,0) → (1,0) → (1,1)` and up to the
doorstep of `(2,1)`: 8 world-units per tick, 64 per horizontal tile, 80 per
vertical tile, with one extra tick per arrival. -/
def c5_script : List (List Input) :=
  List.replicate 9 [Input.Right] ++ List.replicate 11 [Input.Down] ++
    List.replicate 9 [Input.Right]

/-- The state reached by `c5_script` (shown in the C5 theorem): player world
position `(128, 80)` (= tile `(2,1)`), still one arrival tick away from
registering junction 5, with only junction 0 in the history. -/
def c5_s29 : State :=
  { dead := false, game_over := false, score := 0, box_bonus := 50,
    player := { ai := MovementAI.Player, position := ⟨128, 80⟩, speed := 8,
                step := some ⟨2, 1⟩, history := [0] },
    player_start := ⟨0, 0⟩, enemies := [], board := c5_board }

/-- A 1×1 board whose only tile is Empty (the value of
`Board::try_new [" "]`, checked in the C6 counterexample). -/
def c6_board : Board := ⟨[[Tile.Empty]], 1, 1, [], []⟩

/-- A 3×4 board with one derived box spanning tiles `(0,1)`–`(1,2)` (the value
of `Board::try_new ["=  ", "=p=", "=p=", "=  "]`, checked in the C7
counterexample); the two box tiles in column 1 are pre-painted, the two in
column 0 are not. -/
def c7_board : Board :=
  ⟨[[Tile.Unpainted, Tile.Empty, Tile.Empty],
    [Tile.Unpainted, Tile.Painted, Tile.Unpainted],
    [Tile.Unpainted, Tile.Painted, Tile.Unpainted],
    [Tile.Unpainted, Tile.Empty, Tile.Empty]], 3, 4, [0, 3, 4, 6, 7, 9],
    [GridBox.new ⟨0, 1⟩ ⟨1, 2⟩]⟩

/-- The single box of `c7_board`. -/
def c7_box : GridBox := GridBox.new ⟨0, 1⟩ ⟨1, 2⟩

/-- `c7_board` after `check_paint` walks the segment from junction 9 = tile
`(0,3)` up to junction 0 = tile `(0,0)`, painting all of column 0 and thereby
completing the border of the box. -/
def c7_after : Board :=
  ((c7_board.check_paint [0, 9]).map (fun r => r.1)).getD c7_board

/-- The border-fully-Painted test of `GridBox::should_update_paint`, split out
of the embedding for specification purposes: both full rows at the top and
bottom and both full columns at the left and right of the box. -/
def GridBox.border_painted (g : GridBox) (board : Board) : Bool :=
  let x1 := g.top_left.tx
  let x2 := g.bottom_right.tx
  let y1 := g.top_left.ty
  let y2 := g.bottom_right.ty
  let top_and_bottom := (List.range (x2 + 1 - x1).toNat).all (fun k =>
    board.is_painted ⟨x1 + k, y1⟩ && board.is_painted ⟨x1 + k, y2⟩)
  let left_and_right := (List.range (y2 + 1 - y1).toNat).all (fun k =>
    board.is_painted ⟨x1, y1 + k⟩ && board.is_painted ⟨x2, y1 + k⟩)
  top_and_bottom && left_and_right

/-- A 32-wide, 19-tall board whose only walkable tile is the bottom-right
corner `(31, 18)` (row-major id 607), which is therefore its only junction:
the smallest shape on which `State::reset`'s unwrap of the junction at
`(31, 18)` succeeds.  It is the value of `Board::try_new` on `wide_layout`
(theorem `wide_board_from_layout`). -/
def wide_board : Board :=
  ⟨[List.replicate 32 Tile.Empty] ++ List.replicate 17 [] ++
    [List.replicate 31 Tile.Empty ++ [Tile.Unpainted]], 32, 19, [607], []⟩

/-- The layout text whose `Board::try_new` value is `wide_board`. -/
def wide_layout : List String :=
  ["                                "] ++ List.replicate 17 "" ++
    ["                               ="]

/-- An enemy standing on tile `(31, 18)` with the one-stop cyclic route
`[607]`. -/
def wide_enemy : Mob :=
  Mob.new (MovementAI.EnemyLookupAI 0 [607]) ((wide_board.lookup_position 607).to_world)

/-- A game on `wide_board` with the player and the enemy on the same tile, so
the first tick detects a collision. -/
def c8_state : State :=
  { dead := false, game_over := false, score := 0, box_bonus := 50,
    player := Mob.new_player (TilePoint.mk 31 18).to_world, player_start := ⟨31, 18⟩,
    enemies := [wide_enemy], board := wide_board }

/-- `c6_board` after painting its Empty tile. -/
def c6_after : Board :=
  ((c6_board.paint ⟨0, 0⟩).map Prod.fst).getD c6_board

/-- The game state after one tick of `c8_state` with no input (shown in the C8
witness): the collision triggered a same-tick reset. -/
def c8_final : State :=
  { dead := false, game_over := false, score := 0, box_bonus := 50,
    player := { ai := MovementAI.Player, position := ⟨1984, 1440⟩, speed := 8,
                step := none, history := [607] },
    player_start := ⟨31, 18⟩,
    enemies := [{ ai := MovementAI.EnemyLookupAI 0 [607], position := ⟨1984, 1440⟩,
                  speed := 8, step := none, history := [] }],
    board := wide_board }

/-- The intermediate state of that tick after the player update (shown in the
C8 witness): the stationary player recorded junction 607. -/
def c8_s1 : State :=
  { dead := false, game_over := false, score := 0, box_bonus := 50,
    player := { ai := MovementAI.Player, position := ⟨1984, 1440⟩, speed := 8,
                step := none, history := [607] },
    player_start := ⟨31, 18⟩, enemies := [wide_enemy], board := wide_board }

/-- The game built by the parameterized `State::try_new` on `wide_board` with
the single enemy route `[607]` (shown in the C10 witness). -/
def c10_state : State :=
  { dead := false, game_over := false, score := 0, box_bonus := 50,
    player := { ai := MovementAI.Player, position := ⟨1984, 1200⟩, speed := 8,
                step := none, history := [607] },
    player_start := ⟨31, 15⟩,
    enemies := [{ ai := MovementAI.EnemyLookupAI 0 [607], position := ⟨1984, 1440⟩,
                  speed := 8, step := none, history := [] }],
    board := wide_board }

/-- The enemies list produced by the enemy loop of that tick (shown in the C8
witness): the enemy re-chose its single-stop target and collided with the
player. -/
def c8_loop_es : List Mob :=
  [{ ai := MovementAI.EnemyLookupAI 0 [607], position := ⟨1984, 1440⟩,
     speed := 8, step := some ⟨31, 18⟩, history := [607] }]

/-- Rust truncating division of a negative numerator by a positive divisor,
expressed through Euclidean division of the negation. -/
theorem tdiv_neg_eq (x b : Int) (hx : x < 0) (hb : 0 < b) :
    Int.tdiv x b = -((-x) / b) := by
  have h1 : Int.tdiv (-x) b = (-x) / b := Int.tdiv_eq_ediv (by omega) (by omega)
  have h2 : Int.tdiv (-x) b = -(Int.tdiv x b) := Int.neg_tdiv x b
  omega

/-- Tuple form of the world-unit tile extent. -/
theorem worldTileSize_eq : worldTileSize = (64, 80) := rfl

/-- C2: `WorldPoint.to_tile` is NOT floor division at negative coordinates that
are exact multiples of the tile extent: at `x = -64` it yields tile column `-2`
while floor division gives `-1`. -/
theorem c2_counterexample :
    (WorldPoint.mk (-64) 0).to_tile = TilePoint.mk (-2) 0 ∧
    Int.fdiv (-64) 64 = -1 := by
  exact ⟨rfl, by decide⟩

/-- C2 (amended): `to_tile` returns the floor division of each axis by the tile
extent (64 for x, 80 for y) for every input, EXCEPT on an axis whose coordinate
is negative and an exact multiple of the extent, where it returns floor
division minus one. -/
theorem c2_to_tile_floor_characterization (w : WorldPoint) :
    (w.to_tile).tx = (if w.x < 0 ∧ (64 : Int) ∣ w.x then Int.fdiv w.x 64 - 1 else Int.fdiv w.x 64) ∧
    (w.to_tile).ty = (if w.y < 0 ∧ (80 : Int) ∣ w.y then Int.fdiv w.y 80 - 1 else Int.fdiv w.y 80) := by
  obtain ⟨x, y⟩ := w
  dsimp only
  constructor
  · show (if x < 0 then Int.tdiv x 64 - 1 else Int.tdiv x 64) = _
    by_cases hx : x < 0
    · rw [if_pos hx, tdiv_neg_eq x 64 hx (by decide), Int.fdiv_eq_ediv _ (by decide)]
      by_cases hd : (64 : Int) ∣ x
      · rw [if_pos ⟨hx, hd⟩]; omega
      · rw [if_neg (by tauto)]; omega
    · rw [if_neg hx, Int.tdiv_eq_ediv (by omega) (by decide), Int.fdiv_eq_ediv _ (by decide),
        if_neg (by tauto)]
  · show (if y < 0 then Int.tdiv y 80 - 1 else Int.tdiv y 80) = _
    by_cases hy : y < 0
    · rw [if_pos hy, tdiv_neg_eq y 80 hy (by decide), Int.fdiv_eq_ediv _ (by decide)]
      by_cases hd : (80 : Int) ∣ y
      · rw [if_pos ⟨hy, hd⟩]; omega
      · rw [if_neg (by tauto)]; omega
    · rw [if_neg hy, Int.tdiv_eq_ediv (by omega) (by decide), Int.fdiv_eq_ediv _ (by decide),
        if_neg (by tauto)]

/-- C3: the tile/world round trip is NOT the identity on all tile-aligned world
points: the tile-aligned point `(-64, 0)` (the image of tile `(-1, 0)`) maps to
`(-128, 0)` under `to_tile().to_world()`. -/
theorem c3_counterexample :
    (TilePoint.mk (-1) 0).to_world = WorldPoint.mk (-64) 0 ∧
    ((WorldPoint.mk (-64) 0).to_tile).to_world = WorldPoint.mk (-128) 0 ∧
    WorldPoint.mk (-128) 0 ≠ WorldPoint.mk (-64) 0 := by
  refine ⟨rfl, rfl, by decide⟩

/-- C3 (amended): for every tile-aligned world point with non-negative
coordinates (the image of a tile with `tx ≥ 0` and `ty ≥ 0`), the round trip
`w.to_tile().to_world()` returns `w` unchanged. -/
theorem c3_round_trip_nonneg (t : TilePoint)
    (hx : 0 ≤ t.tx) (hy : 0 ≤ t.ty) :
    ((t.to_world).to_tile).to_world = t.to_world := by
  obtain ⟨tx, ty⟩ := t
  have hx' : 0 ≤ tx := hx
  have hy' : 0 ≤ ty := hy
  have h1 : ¬ (tx * 64 < 0) := by omega
  have h2 : ¬ (ty * 80 < 0) := by omega
  have h3 : Int.tdiv (tx * 64) 64 = tx := Int.mul_tdiv_cancel tx (by decide)
  have h4 : Int.tdiv (ty * 80) 80 = ty := Int.mul_tdiv_cancel ty (by decide)
  simp only [TilePoint.to_world, WorldPoint.to_tile, worldTileSize_eq, h1, h2, h3, h4,
    if_false, iff_false, eq_self_iff_true]

/-- `wide_board` is what `Board::try_new` builds from `wide_layout`: one row of
32 blanks, 17 empty rows, and a final row of 31 blanks and one corridor
tile. -/
theorem wide_board_from_layout : Board.try_new wide_layout = some wide_board := by
  decide

/-- Witness for the amended C3 at the concrete tile `(3, 5)`. -/
theorem c3_round_trip_nonneg_witness :
    (((TilePoint.mk 3 5).to_world).to_tile).to_world = (TilePoint.mk 3 5).to_world :=
  c3_round_trip_nonneg (TilePoint.mk 3 5) (by decide) (by decide)

/-- C1: on the 1-wide, 2-tall all-corridor board, the player history
`[0, 1]` describes an upward vertical segment from junction 1 = tile `(0,1)`
to junction 0 = tile `(0,0)`.  `check_paint` newly paints both tiles
(Unpainted becomes Painted), yet returns the all-zero `ScoreUpdate`, whose
`into_option` is `none` — so `update_mut` would add 0 points, not the 1 point
the specification promises for a newly painted vertical segment regardless of
direction. -/
theorem c1_upward_vertical_scores_zero :
    Board.try_new ["=", "="] = some c1_board ∧
    c1_board.get_tile ⟨0, 0⟩ = Tile.Unpainted ∧
    c1_board.get_tile ⟨0, 1⟩ = Tile.Unpainted ∧
    c1_board.lookup_position 1 = ⟨0, 1⟩ ∧
    c1_board.lookup_position 0 = ⟨0, 0⟩ ∧
    (c1_board.check_paint [0, 1]).map
        (fun r => (r.1.get_tile ⟨0, 0⟩, r.1.get_tile ⟨0, 1⟩, r.2.1, r.2.2)) =
      some (Tile.Painted, Tile.Painted, ScoreUpdate.new, [0, 1]) ∧
    ScoreUpdate.new.into_option = none := by
  refine ⟨by decide, rfl, rfl, rfl, rfl, by decide, rfl⟩

/-- C4: the corner tile `(0,0)` of the board built from `[" =", "=="]` is a
grid corner, but its row-major id 0 is not in the junction set, because the
corner tile is Empty (not walkable) and `init_junctions` only considers
walkable tiles. -/
theorem c4_counterexample :
    Board.try_new [" =", "=="] = some c4_board ∧
    c4_board.is_corner 0 0 = true ∧
    (0 : Nat) * c4_board.width + 0 ∉ c4_board.junctions := by
  refine ⟨rfl, rfl, by decide⟩

/-- Membership in the id list produced by `init_junctions` for a cell that
satisfies the insertion condition. -/
theorem mem_init_junctions (b : Board) (x y : Nat)
    (hy : y < b.tiles.length) (hx : x < (b.tiles.getD y []).length)
    (hw : ((b.tiles.getD y []).getD x Tile.Empty).walkable = true)
    (hj : 2 < b.walkable_neighbors (x : Int) (y : Int) ∨
      b.is_corner (x : Int) (y : Int) = true) :
    (y * b.width + x) ∈ b.init_junctions := by
  unfold Board.init_junctions
  refine List.mem_flatMap.mpr ⟨y, List.mem_range.mpr hy, ?_⟩
  refine List.mem_filterMap.mpr ⟨x, List.mem_range.mpr hx, ?_⟩
  rw [if_pos ⟨hw, hj⟩]

/-- A walkable `get_tile` result pins the coordinates inside the stored grid. -/
theorem get_tile_walkable_bounds (b : Board) (t : TilePoint)
    (hw : (b.get_tile t).walkable = true) :
    0 ≤ t.tx ∧ 0 ≤ t.ty ∧ t.ty.toNat < b.tiles.length ∧
      t.tx.toNat < (b.tiles.getD t.ty.toNat []).length := by
  unfold Board.get_tile at hw
  by_cases h : 0 ≤ t.ty ∧ 0 ≤ t.tx
  · rw [if_pos h] at hw
    refine ⟨h.2, h.1, ?_, ?_⟩
    · by_contra hlen
      have hle : b.tiles.length ≤ t.ty.toNat := by omega
      have hrow : b.tiles.getD t.ty.toNat [] = [] := by
        rw [List.getD_eq_getElem?_getD, List.getElem?_eq_none hle]
        rfl
      rw [hrow, show ([] : List Tile).getD t.tx.toNat Tile.Empty = Tile.Empty from rfl] at hw
      exact absurd hw (by decide)
    · by_contra hlen
      have hle : (b.tiles.getD t.ty.toNat []).length ≤ t.tx.toNat := by omega
      have hcell : (b.tiles.getD t.ty.toNat []).getD t.tx.toNat Tile.Empty = Tile.Empty := by
        rw [List.getD_eq_getElem?_getD, List.getElem?_eq_none hle]
        rfl
      rw [hcell] at hw
      exact absurd hw (by decide)
  · rw [if_neg h] at hw
    exact absurd hw (by decide)

/-- Unpacks a successful `Board::try_new`: the height is the number of rows and
the junction set is exactly what `init_junctions` derives from the grid. -/
theorem try_new_inv (layout : List String) (b : Board)
    (hb : Board.try_new layout = some b) :
    b.height = b.tiles.length ∧
    b.junctions = Board.init_junctions ⟨b.tiles, b.width, b.height, [], []⟩ := by
  unfold Board.try_new at hb
  rcases h1 : layout.mapM (fun line => line.toList.mapM Tile.new_from_char) with _ | tiles
  · rw [h1] at hb; exact absurd hb (by simp)
  · rw [h1] at hb
    dsimp only at hb
    rcases h2 : tiles.head? with _ | row0
    · rw [h2] at hb; exact absurd hb (by simp)
    · rw [h2] at hb
      dsimp only at hb
      have hb' := Option.some.inj hb
      subst hb'
      exact ⟨rfl, rfl⟩

/-- C4 (amended): for every layout accepted by `Board::try_new`, every grid
corner tile that is walkable has its row-major id in the junction set,
regardless of its walkable-neighbor count. -/
theorem c4_walkable_corner_is_junction (layout : List String) (b : Board)
    (hb : Board.try_new layout = some b) (tx ty : Int)
    (hc : b.is_corner tx ty = true)
    (hw : (b.get_tile ⟨tx, ty⟩).walkable = true) :
    ty.toNat * b.width + tx.toNat ∈ b.junctions := by
  obtain ⟨hh, hj⟩ := try_new_inv layout b hb
  obtain ⟨hx0, hy0, hyb, hxb⟩ := get_tile_walkable_bounds b ⟨tx, ty⟩ hw
  rw [hj]
  have hcast_x : ((tx.toNat : Int)) = tx := Int.toNat_of_nonneg hx0
  have hcast_y : ((ty.toNat : Int)) = ty := Int.toNat_of_nonneg hy0
  refine mem_init_junctions _ tx.toNat ty.toNat hyb hxb ?_ (Or.inr ?_)
  · have : b.get_tile ⟨tx, ty⟩ =
        ((b.tiles.getD ty.toNat []).getD tx.toNat Tile.Empty) := by
      unfold Board.get_tile
      rw [if_pos ⟨hy0, hx0⟩]
    rw [← this]
    exact hw
  · show Board.is_corner ⟨b.tiles, b.width, b.height, [], []⟩ _ _ = true
    unfold Board.is_corner at hc ⊢
    rw [hcast_x, hcast_y]
    exact hc

/-- Witness for the amended C4: the walkable corner `(1,1)` of the 2×2
all-corridor board has its row-major id in the junction set. -/
theorem c4_walkable_corner_is_junction_witness :
    (1 : Int).toNat * c4w_board.width + (1 : Int).toNat ∈ c4w_board.junctions :=
  c4_walkable_corner_is_junction ["==", "=="] c4w_board rfl 1 1 (by decide) (by decide)

/-- C5: a reachable violation of the asserted axis-alignment invariant.  On
the 3×2 elbow board, walking `(0,0) → (1,0) → (1,1) → (2,1)` turns at the two
non-junction elbow tiles, so the tick in which the player reaches junction 5
calls `check_paint` with history `[5, 0]`: the start junction `(0,0)` and the
end junction `(2,1)` differ in both coordinates, `debug_assert!(dx.abs() +
dy.abs() == 1)` fails, and the painting loop steps diagonally off the grid
(modelled `none`). -/
theorem c5_reachable_non_aligned_segment :
    Board.try_new ["== ", " =="] = some c5_board ∧
    c5_state.run_ticks c5_script = some c5_s29 ∧
    c5_s29.player.history = [0] ∧
    c5_s29.player.step = some ⟨2, 1⟩ ∧
    c5_s29.player.position = (TilePoint.mk 2 1).to_world ∧
    c5_s29.board.get_junction_id ⟨2, 1⟩ = some 5 ∧
    State.update_mut c5_s29 [Input.Right] = none ∧
    Board.check_paint c5_s29.board [5, 0] = none ∧
    ¬ segment_aligned (c5_s29.board.lookup_position 0) (c5_s29.board.lookup_position 5) := by
  refine ⟨by decide, by decide, by decide, by decide, by decide, by decide, by decide,
    by decide, by decide⟩

/-- C6: `Board::paint` does change an Empty tile: on the 1×1 board whose only
tile is Empty, painting `(0,0)` flips it to Painted and reports it as newly
painted. -/
theorem c6_counterexample :
    Board.try_new [" "] = some c6_board ∧
    c6_board.get_tile ⟨0, 0⟩ = Tile.Empty ∧
    (c6_board.paint ⟨0, 0⟩).map (fun r => (r.1.get_tile ⟨0, 0⟩, r.2)) =
      some (Tile.Painted, true) := by
  exact ⟨rfl, rfl, rfl⟩

/-- `List.set` seen through `getD`. -/
theorem getD_set_eq {α : Type} (l : List α) (i j : Nat) (a d : α) :
    (l.set i a).getD j d = if i = j ∧ i < l.length then a else l.getD j d := by
  rw [List.getD_eq_getElem?_getD, List.getD_eq_getElem?_getD, List.getElem?_set]
  by_cases h1 : i = j
  · subst h1
    by_cases h2 : i < l.length
    · simp [h2]
    · rw [if_pos rfl, if_neg h2, if_neg (by tauto), List.getElem?_eq_none (by omega)]
  · rw [if_neg h1, if_neg (by tauto)]

/-- C6 (amended): `Board::paint` never reverts paint: every tile that is
Painted before a successful `paint` call is still Painted afterwards, the
target tile is Painted afterwards, and the call reports `true` exactly when
the target tile was not yet Painted (so Unpainted and Empty targets alike are
turned Painted). -/
theorem c6_paint_never_unpaints (b : Board) (t : TilePoint) (b' : Board) (r : Bool)
    (h : b.paint t = some (b', r)) :
    (∀ t2, b.get_tile t2 = Tile.Painted → b'.get_tile t2 = Tile.Painted) ∧
    b'.get_tile t = Tile.Painted ∧
    (r = true ↔ ¬ b.get_tile t = Tile.Painted) := by
  unfold Board.paint at h
  by_cases hbnd : 0 ≤ t.ty ∧ t.ty.toNat < b.tiles.length ∧ 0 ≤ t.tx ∧
      t.tx.toNat < (b.tiles.getD t.ty.toNat []).length
  swap
  · rw [if_neg hbnd] at h
    exact absurd h (by simp)
  obtain ⟨hy0, hylen, hx0, hxlen⟩ := hbnd
  rw [if_pos ⟨hy0, hylen, hx0, hxlen⟩] at h
  have hget : b.get_tile t = (b.tiles.getD t.ty.toNat []).getD t.tx.toNat Tile.Empty := by
    unfold Board.get_tile
    rw [if_pos ⟨hy0, hx0⟩]
  by_cases hp : (b.tiles.getD t.ty.toNat []).getD t.tx.toNat Tile.Empty = Tile.Painted
  · rw [if_pos hp] at h
    have h' := Option.some.inj h
    obtain ⟨hb', hr⟩ := Prod.mk.injEq .. |>.mp h'
    subst hb'; subst hr
    exact ⟨fun t2 h2 => h2, hget.trans hp,
      ⟨fun hf => absurd hf (by decide), fun hnp => absurd (hget.trans hp) hnp⟩⟩
  · rw [if_neg hp] at h
    have h' := Option.some.inj h
    obtain ⟨hb', hr⟩ := Prod.mk.injEq .. |>.mp h'
    subst hb'; subst hr
    refine ⟨?_, ?_, ?_⟩
    · intro t2 h2
      by_cases hpos : 0 ≤ t2.ty ∧ 0 ≤ t2.tx
      · have hget2 : b.get_tile t2 =
            (b.tiles.getD t2.ty.toNat []).getD t2.tx.toNat Tile.Empty := by
          unfold Board.get_tile
          rw [if_pos hpos]
        show Board.get_tile _ t2 = Tile.Painted
        unfold Board.get_tile
        rw [if_pos hpos]
        show ((b.tiles.set t.ty.toNat _).getD t2.ty.toNat []).getD t2.tx.toNat Tile.Empty =
          Tile.Painted
        rw [getD_set_eq]
        by_cases hrow : t.ty.toNat = t2.ty.toNat ∧ t.ty.toNat < b.tiles.length
        · rw [if_pos hrow, getD_set_eq]
          by_cases hcell : t.tx.toNat = t2.tx.toNat ∧
              t.tx.toNat < (b.tiles.getD t.ty.toNat []).length
          · rw [if_pos hcell]
          · rw [if_neg hcell]
            rw [hget2, ← hrow.1] at h2
            exact h2
        · rw [if_neg hrow, ← hget2]
          exact h2
      · rw [show b.get_tile t2 = Tile.Empty from by
          unfold Board.get_tile; rw [if_neg hpos]] at h2
        exact absurd h2 (by decide)
    · show Board.get_tile _ t = Tile.Painted
      unfold Board.get_tile
      rw [if_pos ⟨hy0, hx0⟩]
      show ((b.tiles.set t.ty.toNat _).getD t.ty.toNat []).getD t.tx.toNat Tile.Empty =
        Tile.Painted
      rw [getD_set_eq, if_pos ⟨rfl, hylen⟩, getD_set_eq, if_pos ⟨rfl, hxlen⟩]
    · rw [hget]
      simpa using hp

/-- Witness for the amended C6: painting the Empty tile of the 1×1 board. -/
theorem c6_paint_never_unpaints_witness :
    c6_after.get_tile ⟨0, 0⟩ = Tile.Painted ∧
    (true = true ↔ ¬ c6_board.get_tile ⟨0, 0⟩ = Tile.Painted) :=
  (c6_paint_never_unpaints c6_board ⟨0, 0⟩ c6_after true rfl).2

/-- C7: a box whose border becomes fully Painted without its flag
transitioning.  On `c7_board` the single box spans `(0,1)`–`(1,2)`; its column-1
border tiles are pre-painted and `check_paint` on history `[0, 9]` (the segment
from junction 9 = `(0,3)` up to junction 0 = `(0,0)`) newly paints all of
column 0, completing the box border.  Yet the box flag stays `false` — the box
check only examines boxes whose rectangle contains a segment endpoint, and both
endpoints lie outside the box — and even calling `check_box_painting` directly
with those endpoints updates nothing. -/
theorem c7_counterexample :
    Board.try_new ["=  ", "=p=", "=p=", "=  "] = some c7_board ∧
    c7_board.boxes = [c7_box] ∧
    c7_box.painted = false ∧
    c7_board.get_tile ⟨0, 1⟩ = Tile.Unpainted ∧
    (c7_board.check_paint [0, 9]).map (fun r => r.1) = some c7_after ∧
    c7_after.get_tile ⟨0, 1⟩ = Tile.Painted ∧
    c7_after.boxes = [c7_box] ∧
    c7_box.border_painted c7_after = true ∧
    c7_box.should_update_paint c7_after = true ∧
    (c7_after.check_box_painting ⟨0, 0⟩ ⟨0, 3⟩).2 = 0 ∧
    (c7_after.check_box_painting ⟨0, 0⟩ ⟨0, 3⟩).1.boxes = [c7_box] := by
  refine ⟨by decide, by decide, by decide, by decide, by decide, by decide, by decide,
    by decide, by decide, by decide, by decide⟩

/-- `should_update_paint` is the conjunction of "not yet painted" and the
full-border test. -/
theorem should_update_paint_eq (g : GridBox) (b : Board) :
    g.should_update_paint b = (!g.painted && g.border_painted b) := by
  cases hp : g.painted <;>
    simp [GridBox.should_update_paint, GridBox.border_painted, hp]

/-- C7 (amended): pointwise characterization of the box flags across
`Board::check_box_painting`: an already-painted box is untouched (so the flag
transitions false→true at most once); a box whose flag becomes true was
unpainted with a fully Painted border and a segment endpoint inside its
rectangle; a box whose border is not fully Painted keeps its flag (painting a
strict subset of the border never sets it); and an unpainted box with fully
Painted border and a matching endpoint is set. -/
theorem c7_box_flag_characterization (b : Board) (t1 t2 : TilePoint) (i : Nat)
    (g g' : GridBox)
    (hg : b.boxes[i]? = some g)
    (hg' : (b.check_box_painting t1 t2).1.boxes[i]? = some g') :
    (g.painted = true → g' = g) ∧
    (g'.painted = true → g.painted = true ∨
      (g.border_painted b = true ∧ (g.matchesTile t1 = true ∨ g.matchesTile t2 = true))) ∧
    (g.border_painted b = false → g'.painted = g.painted) ∧
    (g.painted = false → g.border_painted b = true →
      (g.matchesTile t1 = true ∨ g.matchesTile t2 = true) → g'.painted = true) := by
  unfold Board.check_box_painting at hg'
  rw [List.getElem?_map, hg] at hg'
  replace hg' :
      some (if ((g.matchesTile t1 || g.matchesTile t2) && g.should_update_paint b) = true then
        { g with painted := true } else g) = some g' := hg'
  have hg'' := Option.some.inj hg'
  by_cases hhit : ((g.matchesTile t1 || g.matchesTile t2) && g.should_update_paint b) = true
  · rw [if_pos hhit] at hg''
    rw [should_update_paint_eq] at hhit
    have hm : g.matchesTile t1 = true ∨ g.matchesTile t2 = true := by
      have := (Bool.and_eq_true _ _).mp hhit
      exact (Bool.or_eq_true _ _).mp this.1
    have hpb : g.painted = false ∧ g.border_painted b = true := by
      have := ((Bool.and_eq_true _ _).mp hhit).2
      have := (Bool.and_eq_true _ _).mp this
      exact ⟨by simpa using this.1, this.2⟩
    subst hg''
    refine ⟨fun hpt => absurd hpt (by simp [hpb.1]), fun _ => Or.inr ⟨hpb.2, hm⟩, ?_, ?_⟩
    · intro hb
      exact absurd hb (by simp [hpb.2])
    · intro _ _ _
      rfl
  · rw [if_neg hhit] at hg''
    subst hg''
    refine ⟨fun _ => rfl, fun hpt => Or.inl hpt, fun _ => rfl, ?_⟩
    intro hp hb hm
    have hor : (g.matchesTile t1 || g.matchesTile t2) = true := (Bool.or_eq_true _ _).mpr hm
    have hsu : g.should_update_paint b = true := by
      rw [should_update_paint_eq]
      simp [hp, hb]
    exact absurd ((Bool.and_eq_true _ _).mpr ⟨hor, hsu⟩) hhit

/-- Witness for the amended C7: on `c7_after` (full border Painted, flag
false), a box check whose segment endpoint `(0,1)` lies inside the box does set
the flag. -/
theorem c7_box_flag_characterization_witness :
    (c7_after.check_box_painting ⟨0, 1⟩ ⟨0, 1⟩).1.boxes[0]? =
      some (GridBox.mk ⟨0, 1⟩ ⟨1, 2⟩ true) ∧
    (GridBox.mk ⟨0, 1⟩ ⟨1, 2⟩ true).painted = true :=
  ⟨by decide,
    (c7_box_flag_characterization c7_after ⟨0, 1⟩ ⟨0, 1⟩ 0 c7_box
      (GridBox.mk ⟨0, 1⟩ ⟨1, 2⟩ true) (by decide) (by decide)).2.2.2
      (by decide) (by decide) (Or.inl (by decide))⟩

/-- `player_phase` only changes the player, the board and the score. -/
theorem player_phase_keeps (s : State) (buttons : List Input) (s1 : State)
    (h : s.player_phase buttons = some s1) :
    s1.player_start = s.player_start ∧ s1.enemies = s.enemies ∧ s1.dead = s.dead := by
  unfold State.player_phase at h
  rcases Option.bind_eq_some.mp h with ⟨⟨p, bb, sc⟩, hup, heq⟩
  cases Option.some.inj heq
  exact ⟨rfl, rfl, rfl⟩

/-- `enemy_phase` unpacked: the enemies loop ran and its results were stored. -/
theorem enemy_phase_shape (s1 s2 : State) (h : s1.enemy_phase = some s2) :
    ∃ es b2 found, State.enemies_loop (s1.player.position.to_tile) s1.board s1.enemies =
        some (es, b2, found) ∧
      s2 = { s1 with enemies := es, board := b2, dead := s1.dead || found } := by
  unfold State.enemy_phase at h
  rcases Option.bind_eq_some.mp h with ⟨⟨es, b2, found⟩, hloop, heq⟩
  exact ⟨es, b2, found, hloop, (Option.some.inj heq).symm⟩

/-- Every mob in the output of the enemy-reset loop is the reset of a mob of
the input. -/
theorem reset_enemies_mem (player_start : TilePoint) (board : Board)
    (l l' : List Mob)
    (h : State.reset_enemies player_start board l = some l') :
    ∀ e' ∈ l', ∃ e ∈ l, e.reset player_start board = some e' := by
  induction l generalizing l' with
  | nil =>
    cases Option.some.inj h
    intro e' he'
    exact absurd he' (by simp)
  | cons e rest ih =>
    rcases Option.bind_eq_some.mp h with ⟨e1, he1, h2⟩
    rcases Option.bind_eq_some.mp h2 with ⟨rest1, hrest1, heq⟩
    cases Option.some.inj heq
    intro e' he'
    rcases List.mem_cons.mp he' with h' | h'
    · exact ⟨e, List.mem_cons_self .., by rw [← h'] at he1; exact he1⟩
    · rcases ih rest1 hrest1 e' h' with ⟨e0, he0, hr⟩
      exact ⟨e0, List.mem_cons_of_mem _ he0, hr⟩

/-- What `Mob::reset` produces: no step, empty history, and the policy-defined
start position. -/
theorem mob_reset_shape (m : Mob) (ps : TilePoint) (board : Board) (m' : Mob)
    (h : m.reset ps board = some m') :
    m'.step = none ∧ m'.history = [] ∧
    (m.ai = MovementAI.Player → m'.ai = MovementAI.Player ∧ m'.position = ps.to_world) ∧
    (∀ n p, m'.ai = MovementAI.EnemyLookupAI n p →
      n = 0 ∧ ∃ p0, p.head? = some p0 ∧
        m'.position = (board.lookup_position p0).to_world) := by
  unfold Mob.reset at h
  cases hai : m.ai with
  | Player =>
    rw [hai] at h
    simp only [MovementAI.reset] at h
    cases Option.some.inj h
    refine ⟨rfl, rfl, fun _ => ⟨rfl, rfl⟩, fun n p hp => ?_⟩
    exact MovementAI.noConfusion hp
  | EnemyLookupAI n0 path =>
    rw [hai] at h
    simp only [MovementAI.reset] at h
    cases hh : path.head? with
    | none =>
      rw [hh] at h
      exact absurd h (by simp)
    | some p0 =>
      rw [hh] at h
      cases Option.some.inj h
      refine ⟨rfl, rfl, fun hpl => MovementAI.noConfusion hpl, fun n p hp => ?_⟩
      have h1 : (0 : Nat) = n ∧ path = p := by
        injection hp with h1 h2
        exact ⟨h1, h2⟩
      obtain ⟨hn, hpath⟩ := h1
      subst hn; subst hpath
      exact ⟨rfl, p0, hh, rfl⟩

/-- C8: whenever `update_mut` returns, the dead flag is false; and whenever
the enemy loop of that tick found the player's tile coinciding with an (updated)
enemy's tile, the very same call has already performed the reset: the player
(with the Player policy) stands at `player_start` with no pending step, and
every enemy stands at the tile of its `path[0]` with its cursor back at 0. -/
theorem c8_collision_same_tick_reset (s : State) (buttons : List Input) (s' : State)
    (h : s.update_mut buttons = some s') :
    s'.dead = false ∧
    (∀ s1 es b2, s.player_phase buttons = some s1 →
      s1.player.ai = MovementAI.Player →
      State.enemies_loop (s1.player.position.to_tile) s1.board s1.enemies =
        some (es, b2, true) →
      s'.player.position = s.player_start.to_world ∧
      s'.player.step = none ∧
      (∀ e' ∈ s'.enemies, ∀ n p, e'.ai = MovementAI.EnemyLookupAI n p →
        n = 0 ∧ ∃ p0, p.head? = some p0 ∧
          e'.position = (s'.board.lookup_position p0).to_world)) := by
  unfold State.update_mut at h
  rcases Option.bind_eq_some.mp h with ⟨s1₀, h1₀, hrest⟩
  rcases Option.bind_eq_some.mp hrest with ⟨s2₀, h2₀, h3⟩
  constructor
  · unfold State.death_phase at h3
    by_cases hd : s2₀.dead = true
    · rw [if_pos hd] at h3
      rcases Option.bind_eq_some.mp h3 with ⟨sr, hr, heq⟩
      cases Option.some.inj heq
      rfl
    · rw [if_neg hd] at h3
      cases Option.some.inj h3
      exact Bool.eq_false_iff.mpr hd
  · intro s1 es b2 h1 hai hloop
    rw [h1] at h1₀
    have he1 : s1 = s1₀ := Option.some.inj h1₀
    rw [← he1] at h2₀
    obtain ⟨es₀, b₀, found₀, hloop₀, hs2⟩ := enemy_phase_shape s1 s2₀ h2₀
    rw [hloop] at hloop₀
    have ht := Option.some.inj hloop₀
    obtain ⟨ht1, ht23⟩ := Prod.mk.injEq .. |>.mp ht
    obtain ⟨ht2, ht3⟩ := Prod.mk.injEq .. |>.mp ht23
    subst ht1; subst ht2; subst ht3
    subst hs2
    unfold State.death_phase at h3
    rw [if_pos (by simp)] at h3
    rcases Option.bind_eq_some.mp h3 with ⟨sr, hr, heq⟩
    cases Option.some.inj heq
    unfold State.reset at hr
    rcases Option.bind_eq_some.mp hr with ⟨pr, hpr, hr2⟩
    rcases Option.bind_eq_some.mp hr2 with ⟨pt, hpt, hr3⟩
    rcases Option.bind_eq_some.mp hr3 with ⟨es', hes', heq2⟩
    cases Option.some.inj heq2
    obtain ⟨hstep, hhist, hplayer, henemy⟩ := mob_reset_shape _ _ _ _ hpr
    have hkeep := player_phase_keeps s buttons s1 h1
    refine ⟨?_, ?_, ?_⟩
    · have hpos := (hplayer hai).2
      show pr.position = s.player_start.to_world
      rw [hpos]
      show s1.player_start.to_world = s.player_start.to_world
      rw [hkeep.1]
    · exact hstep
    · intro e' he' n p hp
      obtain ⟨e, he, hre⟩ := reset_enemies_mem _ _ _ _ hes' e' he'
      obtain ⟨_, _, _, hene⟩ := mob_reset_shape _ _ _ _ hre
      exact hene n p hp

/-- Witness for C8: on `wide_board` with the player and the single-stop enemy
sharing tile `(31, 18)`, the first tick detects the collision and the same
`update_mut` call ends dead-flag-false with the player back at
`player_start`. -/
theorem c8_collision_same_tick_reset_witness :
    c8_final.dead = false ∧
    c8_final.player.position = c8_state.player_start.to_world ∧
    c8_final.player.step = none := by
  have h := c8_collision_same_tick_reset c8_state [] c8_final (by decide)
  have h2 := h.2 c8_s1 c8_loop_es wide_board (by decide) (by decide) (by decide)
  exact ⟨h.1, h2.1, h2.2.1⟩

/-- C9: on a rectangular board (all rows of width `width`, `height` rows, as
`Board::try_new` builds from a well-formed layout), every out-of-bounds
`TilePoint` — a negative coordinate or one at or beyond width/height — makes
`get_tile` return `Tile::Empty` (total, no failure) and makes `tile_id` and
`get_junction_id` return `none`. -/
theorem c9_oob_lookups_total (b : Board) (t : TilePoint)
    (hrect : ∀ row ∈ b.tiles, row.length = b.width)
    (hh : b.tiles.length = b.height)
    (ht : t.tx < 0 ∨ t.ty < 0 ∨ (b.width : Int) ≤ t.tx ∨ (b.height : Int) ≤ t.ty) :
    b.get_tile t = Tile.Empty ∧ b.tile_id t = none ∧ b.get_junction_id t = none := by
  have htid : b.tile_id t = none := by
    unfold Board.tile_id
    rw [if_pos (by tauto)]
  refine ⟨?_, htid, ?_⟩
  · unfold Board.get_tile
    by_cases hpos : 0 ≤ t.ty ∧ 0 ≤ t.tx
    · rw [if_pos hpos]
      have hrowEmpty : b.tiles.getD t.ty.toNat [] = [] ∨
          (b.tiles.getD t.ty.toNat []).length ≤ t.tx.toNat := by
        rcases ht with h' | h' | h' | h'
        · exact absurd h' (by omega)
        · exact absurd h' (by omega)
        · by_cases hy : t.ty.toNat < b.tiles.length
          · right
            have hmem : b.tiles.getD t.ty.toNat [] ∈ b.tiles := by
              rw [List.getD_eq_getElem?_getD, List.getElem?_eq_getElem hy]
              exact List.getElem_mem hy
            have hlen := hrect _ hmem
            omega
          · left
            rw [List.getD_eq_getElem?_getD, List.getElem?_eq_none (by omega)]
            rfl
        · left
          rw [List.getD_eq_getElem?_getD, List.getElem?_eq_none (by omega)]
          rfl
      rcases hrowEmpty with h' | h'
      · rw [h']
        rfl
      · rw [List.getD_eq_getElem?_getD (b.tiles.getD t.ty.toNat []),
          List.getElem?_eq_none h']
        rfl
    · rw [if_neg hpos]
  · unfold Board.get_junction_id
    rw [htid]
    rfl

/-- Witness for C9: the rectangular 1×2 board and the out-of-bounds tile
`(5, 0)`. -/
theorem c9_oob_lookups_total_witness :
    c1_board.get_tile ⟨5, 0⟩ = Tile.Empty ∧ c1_board.tile_id ⟨5, 0⟩ = none ∧
    c1_board.get_junction_id ⟨5, 0⟩ = none :=
  c9_oob_lookups_total c1_board ⟨5, 0⟩ (by decide) (by decide) (by decide)

/-- What a successful `State::reset` produces for the player: the history is
exactly the junction id of tile `(31, 18)` on top of a cleared history, there
is no pending step, and a Player-policy mob is repositioned to
`player_start`. -/
theorem reset_shape (s s' : State) (h : State.reset s = some s') :
    ∃ j, s.board.get_junction_id ⟨31, 18⟩ = some j ∧
      s'.player.history = [j] ∧ s'.player.step = none ∧
      (s.player.ai = MovementAI.Player → s'.player.position = s.player_start.to_world) ∧
      s'.player_start = s.player_start ∧ s'.board = s.board := by
  unfold State.reset at h
  rcases Option.bind_eq_some.mp h with ⟨pr, hpr, hr2⟩
  rcases Option.bind_eq_some.mp hr2 with ⟨pt, hpt, hr3⟩
  rcases Option.bind_eq_some.mp hr3 with ⟨es', hes', heq⟩
  cases Option.some.inj heq
  obtain ⟨hstep, hhist, hplayer, _⟩ := mob_reset_shape _ _ _ _ hpr
  refine ⟨pt, hpt, ?_, hstep, fun hai => (hplayer hai).2, rfl, rfl⟩
  show pt :: pr.history = [pt]
  rw [hhist]

/-- C10: after every successful `State::reset` the player's history is exactly
one entry: the junction id of tile `(31, 18)` (whose lookup the source
unwraps), while the player itself is placed at `player_start`; and after every
successful `State::try_new` the history is that one junction id while the
player sits at `player_start = (31, 15)`, a different tile — so the first
scored segment is computed relative to a tile the player has not visited. -/
theorem c10_initial_history_junction :
    (∀ s s', State.reset s = some s' →
      ∃ j, s.board.get_junction_id ⟨31, 18⟩ = some j ∧
        s'.player.history = [j] ∧
        (s.player.ai = MovementAI.Player →
          s'.player.position = s.player_start.to_world)) ∧
    (∀ board routes s, State.try_new board routes = some s →
      ∃ j, board.get_junction_id ⟨31, 18⟩ = some j ∧
        s.player.history = [j] ∧
        s.player_start = ⟨31, 15⟩ ∧
        s.player.position = (TilePoint.mk 31 15).to_world ∧
        (TilePoint.mk 31 15) ≠ (TilePoint.mk 31 18)) := by
  constructor
  · intro s s' h
    obtain ⟨j, hj, hh', _, hpos, _, _⟩ := reset_shape s s' h
    exact ⟨j, hj, hh', hpos⟩
  · intro board routes s h
    unfold State.try_new at h
    rcases Option.bind_eq_some.mp h with ⟨enemies, hmap, hreset⟩
    obtain ⟨j, hj, hh', _, hpos, hps, _⟩ := reset_shape _ s hreset
    refine ⟨j, hj, hh', ?_, ?_, by decide⟩
    · rw [hps]
    · rw [hpos rfl]

/-- Witness for C10: `reset` on the `wide_board` collision game and `try_new`
on `wide_board` with route `[607]`. -/
theorem c10_initial_history_junction_witness :
    (∃ j, c8_state.board.get_junction_id ⟨31, 18⟩ = some j ∧
      c8_final.player.history = [j] ∧
      (c8_state.player.ai = MovementAI.Player →
        c8_final.player.position = c8_state.player_start.to_world)) ∧
    (∃ j, wide_board.get_junction_id ⟨31, 18⟩ = some j ∧
      c10_state.player.history = [j] ∧
      c10_state.player_start = ⟨31, 15⟩ ∧
      c10_state.player.position = (TilePoint.mk 31 15).to_world ∧
      (TilePoint.mk 31 15) ≠ (TilePoint.mk 31 18)) :=
  ⟨c10_initial_history_junction.1 c8_state c8_final (by decide),
   c10_initial_history_junction.2 wide_board [[607]] c10_state (by decide)⟩

end Amidar
